import Mathlib

/-!
Shallow embedding of the workflow execution core of `valiant`
(src/valiant/framework/engine.py): the legacy `StepResult` record, the
`WorkflowRunner` step registration, the per-step dependency / short-circuit /
retry-timeout logic of `run_step`, the grouping loop of `run`, the
`get_progress` helper, and the statistics part of `print_summary`.

Python runtime values carried in results are modelled by `PyObj`; a step's
callable is modelled by its observable behaviour per attempt (`Callable`):
what `func(context)` does on the n-th attempt (return a value, raise, or hit
the `asyncio.wait_for` timeout) and the wall-clock time observed at the end of
that attempt (`time.time() - start_time`).
-/

/-- A Python runtime value, as far as the engine inspects one. -/
inductive PyObj where
  | none
  | bool (b : Bool)
  | int (n : Int)
  | str (s : String)
deriving DecidableEq

/-- The value a step's callable can return, split exactly the way
`run_step` dispatches on it (engine.py lines 169-194):
an object with `to_dict` and `name` (the unified `StepResult`;
`getattr` defaults for `metrics`/`tags`/`metadata` are folded into the
fields), an object with `to_dict` but no `name` (the legacy
`EnhancedStepResult` branch), a 3-element tuple, or anything else
(carrying the text of `type(obj)` for the error message). -/
inductive PyValue where
  | unified (success : Bool) (message : String) (data : PyObj) (skipped : Bool)
      (metrics : List (String × PyObj)) (tags : List String)
      (metadata : List (String × PyObj))
  | enhanced (success : Bool) (message : String) (data : PyObj)
      (derived_metrics : List (String × PyObj)) (tags : List String)
  | tuple3 (success : Bool) (message : String) (data : PyObj)
  | other (typeName : String)

/-- Outcome of one attempt of a callable: a normal return, an
`asyncio.TimeoutError` from `asyncio.wait_for`, or a raised exception
(carrying `str(e)` and `traceback.format_exc()`). -/
inductive AttemptOutcome where
  | ret (v : PyValue)
  | timeout
  | exn (msg : String) (tb : String)

/-- Model of a step's callable: `behavior n` is what `func(self.context)`
does on attempt `n`, and `elapsed n` is the value of
`time.time() - start_time` observed in the `finally` block of attempt `n`. -/
structure Callable where
  behavior : Nat → AttemptOutcome
  elapsed : Nat → Rat := fun _ => 0

/-- The legacy `StepResult` of engine.py (lines 21-36), with the field
defaults set in `__init__`. `exception` keeps `str(e)` of the stored
exception. -/
structure StepResult where
  name : String
  success : Bool := false
  message : String := ""
  skipped : Bool := false
  executed : Bool := false
  time_taken : Rat := 0
  attempts : Nat := 1
  exception : Option String := none
  data : PyObj := PyObj.none
  derived_metrics : List (String × PyObj) := []
  tags : List String := []
  metadata : List (String × PyObj) := []
deriving DecidableEq

/-- A registered step: the dict appended by `WorkflowRunner.add_step`
(engine.py lines 116-123), with the callable replaced by its model. -/
structure Step where
  name : String
  func : Callable
  requires : List String := []
  parallel_group : Option String := none
  timeout : Rat
  retries : Nat

/-- The `WorkflowRunner` state used by the embedded methods (engine.py
lines 79-101); the configuration-loading side effects on `context` are
outside the claims and the context is kept abstract. -/
structure Runner where
  stop_on_failure : Bool := true
  verbose : Bool := false
  timeout : Rat := 30
  max_retries : Nat := 1
  steps : List Step := []
  results : List StepResult := []

/-- `WorkflowRunner.add_step` (engine.py lines 103-123): resolve the
per-step timeout and retries against the runner defaults and append the
step dict. `requires or []` maps both `None` and `[]` to `[]`. -/
def add_step (runner : Runner) (name : String) (func : Callable)
    (requires : Option (List String)) (parallel_group : Option String)
    (timeout : Option Rat) (retries : Option Nat) : Runner :=
  let step_timeout := timeout.getD runner.timeout
  let step_retries := retries.getD runner.max_retries
  { runner with
      steps := runner.steps ++
        [{ name := name
           func := func
           requires := requires.getD []
           parallel_group := parallel_group
           timeout := step_timeout
           retries := step_retries }] }

/-- `[r.name for r in self.results if r.success]` (engine.py line 133). -/
def successNames (results : List StepResult) : List String :=
  (results.filter fun r => r.success).map fun r => r.name

/-- `[dep for dep in step["requires"] if dep not in completed_step_names]`
(engine.py line 134). -/
def missingDeps (results : List StepResult) (requires : List String) :
    List String :=
  requires.filter fun dep => !((successNames results).contains dep)

/-- `any(not r.success and not r.skipped for r in self.results)`
(engine.py lines 141 and 233). -/
def hasBlockingFailure (results : List StepResult) : Bool :=
  results.any fun r => !r.success && !r.skipped

/-- Decimal-free rendering of a rational, standing in for Python float
formatting in messages (the exact text of the number is not claimed). -/
def ratStr (q : Rat) : String :=
  toString q.num ++ (if q.den = 1 then "" else "/" ++ toString q.den)

/-- `f"Timeout after {timeout} seconds"` (engine.py line 199). -/
def timeoutMessage (t : Rat) : String :=
  "Timeout after " ++ ratStr t ++ " seconds"

/-- `f" (attempt {attempt}/{max_retries + 1})"` (engine.py line 203). -/
def attemptSuffix (attempt maxRetries : Nat) : String :=
  " (attempt " ++ toString attempt ++ "/" ++ toString (maxRetries + 1) ++ ")"

/-- The result-normalisation dispatch of `run_step` (engine.py lines
169-194): copy fields from a structured result object, unpack a 3-tuple,
or record an invalid-return-type failure. -/
def normalizeReturn (v : PyValue) (r : StepResult) : StepResult :=
  match v with
  | .unified s m d sk metrics tags metadata =>
      { r with
          success := s, message := m, data := d, skipped := sk,
          derived_metrics := metrics, tags := tags, metadata := metadata }
  | .enhanced s m d dm tags =>
      { r with
          success := s, message := m, data := d,
          derived_metrics := dm, tags := tags }
  | .tuple3 s m d => { r with success := s, message := m, data := d }
  | .other t =>
      { r with
          success := false,
          message := "Invalid return type from step: " ++ t }

/-- The retry/timeout loop of `run_step` (engine.py lines 150-217),
`for attempt in range(1, max_retries + 2)`. `remaining` counts the
attempts still permitted after the current one, so `remaining = 0` is
exactly the Python condition `attempt > max_retries`. On a normal return
the value is normalised, `attempts` is set to the attempt number and the
loop breaks; a timeout overwrites `message` before the budget test; an
exception stores the error; `time_taken` is refreshed in every
iteration (the `finally` block). -/
def attemptLoop (func : Callable) (tout : Rat) (maxRetries : Nat)
    (verbose : Bool) : Nat → Nat → StepResult → StepResult
  | attempt, remaining, r =>
    match func.behavior attempt with
    | .ret v =>
        let r := normalizeReturn v r
        { r with attempts := attempt, time_taken := func.elapsed attempt }
    | .timeout =>
        let r := { r with message := timeoutMessage tout }
        match remaining with
        | 0 =>
            { r with
                success := false,
                message := r.message ++
                  (if verbose then attemptSuffix attempt maxRetries else ""),
                time_taken := func.elapsed attempt }
        | rem + 1 =>
            attemptLoop func tout maxRetries verbose (attempt + 1) rem
              { r with time_taken := func.elapsed attempt }
    | .exn e tb =>
        let r := { r with exception := some e }
        match remaining with
        | 0 =>
            { r with
                success := false,
                message := "Error: " ++ e ++
                  (if verbose then "\n" ++ tb else ""),
                time_taken := func.elapsed attempt }
        | rem + 1 =>
            attemptLoop func tout maxRetries verbose (attempt + 1) rem
              { r with time_taken := func.elapsed attempt }

/-- `WorkflowRunner.run_step` (engine.py lines 126-218): dependency check
against prior successful results, stop-on-failure re-check, then the
retry/timeout loop starting at attempt 1 with `executed` set. -/
def run_step (stop_on_failure verbose : Bool) (results : List StepResult)
    (step : Step) : StepResult :=
  let result : StepResult := { name := step.name }
  let missing := missingDeps results step.requires
  if !missing.isEmpty then
    { result with
        skipped := true,
        message := "Missing dependencies: " ++ String.intercalate ", " missing }
  else if stop_on_failure && hasBlockingFailure results then
    { result with skipped := true, message := "Skipped due to previous failure" }
  else
    attemptLoop step.func step.timeout step.retries verbose 1 step.retries
      { result with executed := true }

/-- `step["parallel_group"] or step["name"]` (engine.py line 225): Python
`or` falls back to the name when the group is `None` or the empty string. -/
def groupKey (s : Step) : String :=
  match s.parallel_group with
  | some g => if g = "" then s.name else g
  | none => s.name

/-- Insertion into the insertion-ordered dict built by `run` (engine.py
lines 223-228): a new key is appended at the end, an existing key has the
step appended to its member list. -/
def insertGrouped (gs : List (String × List Step)) (key : String) (s : Step) :
    List (String × List Step) :=
  match gs with
  | [] => [(key, [s])]
  | (k, l) :: rest =>
      if k = key then (k, l ++ [s]) :: rest
      else (k, l) :: insertGrouped rest key s

/-- One iteration of the grouping loop of `run` (engine.py lines 224-228). -/
def insStep (gs : List (String × List Step)) (s : Step) :
    List (String × List Step) :=
  insertGrouped gs (groupKey s) s

/-- The `groups` dict of `run` (engine.py lines 222-228), as an ordered
association list. -/
def groupSteps (steps : List Step) : List (String × List Step) :=
  steps.foldl insStep []

/-- The result appended for each member of a short-circuited group
(engine.py lines 234-238). -/
def prevFailureSkip (name : String) : StepResult :=
  { name := name, skipped := true, message := "Skipped due to previous failure" }

/-- One iteration of the group loop of `run` (engine.py lines 231-248):
short-circuit the whole group on a prior blocking failure, otherwise run
every member against the result list as it stood before the group
(`asyncio.gather` appends the results in task order, after all members
have finished). -/
def processGroup (stop_on_failure verbose : Bool) (results : List StepResult)
    (group : String × List Step) : List StepResult :=
  if stop_on_failure && hasBlockingFailure results then
    results ++ group.2.map fun s => prevFailureSkip s.name
  else
    results ++ group.2.map fun s => run_step stop_on_failure verbose results s

/-- `WorkflowRunner.run` (engine.py lines 220-248): group the steps, then
process the groups sequentially in dict order, accumulating into
`self.results`. -/
def runAll (stop_on_failure verbose : Bool) (results : List StepResult)
    (steps : List Step) : List StepResult :=
  (groupSteps steps).foldl (processGroup stop_on_failure verbose) results

/-- `len([r for r in self.results if r.executed])` (engine.py line 281). -/
def countExecuted (results : List StepResult) : Nat :=
  (results.filter fun r => r.executed).length

/-- `WorkflowRunner.get_progress` (engine.py lines 279-282): the guarded
ratio `executed_steps / len(self.steps) if self.steps else 0`. -/
def get_progress (runner : Runner) : Rat :=
  if runner.steps.isEmpty then 0
  else (countExecuted runner.results : Rat) / (runner.steps.length : Rat)

/-- The `stats` object of the JSON branch of `print_summary`
(engine.py lines 304-331). -/
structure JsonStats where
  passed : Nat := 0
  failed : Nat := 0
  skipped : Nat := 0
  total_time : Rat := 0
deriving DecidableEq

/-- One iteration of the stats loop of the JSON branch of `print_summary`
(engine.py lines 324-331). -/
def jsonStatsStep (st : JsonStats) (r : StepResult) : JsonStats :=
  if r.executed then
    let st :=
      if r.success then { st with passed := st.passed + 1 }
      else { st with failed := st.failed + 1 }
    { st with total_time := st.total_time + r.time_taken }
  else
    { st with skipped := st.skipped + 1 }

/-- The accumulated `stats` of the JSON branch of `print_summary`. -/
def jsonStats (results : List StepResult) : JsonStats :=
  results.foldl jsonStatsStep {}

/-- `executed = [s for s in results if s.executed]` (engine.py line 370). -/
def richExecuted (results : List StepResult) : List StepResult :=
  results.filter fun r => r.executed

/-- `successes = [s for s in executed if s.success]` (engine.py line 371). -/
def richSuccesses (results : List StepResult) : List StepResult :=
  (richExecuted results).filter fun r => r.success

/-- `failures = [s for s in executed if not s.success]` (engine.py line 372). -/
def richFailures (results : List StepResult) : List StepResult :=
  (richExecuted results).filter fun r => !r.success

/-- `skipped = [s for s in results if s.skipped]` (engine.py line 373). -/
def richSkipped (results : List StepResult) : List StepResult :=
  results.filter fun r => r.skipped

/-- `total_time = sum(r.time_taken for r in executed)` (engine.py line 382). -/
def richTotalTime (results : List StepResult) : Rat :=
  ((richExecuted results).map fun r => r.time_taken).sum

/-- First-seen order of keys: the keys of `l` not already in `seen`,
each kept at its first occurrence. -/
def firstSeenKeys : List String → List String → List String
  | _, [] => []
  | seen, k :: ks =>
      if k ∈ seen then firstSeenKeys seen ks
      else k :: firstSeenKeys (k :: seen) ks

/-- Lookup in the ordered group dict. -/
def findGroup : List (String × List Step) → String → Option (List Step)
  | [], _ => none
  | (k, l) :: rest, key => if k = key then some l else findGroup rest key

/-- Whether an attempt outcome goes through an `except` arm of the retry
loop (timeout or raised exception) rather than returning normally. -/
def isFailureOutcome : AttemptOutcome → Bool
  | .ret _ => false
  | .timeout => true
  | .exn _ _ => true

/-- Append a filtered batch to an optional member list, with `none` for a
key that never appeared. -/
def combineOpt (o : Option (List Step)) (l : List Step) : Option (List Step) :=
  match o with
  | some m => some (m ++ l)
  | none => if l.isEmpty then none else some l

/-- A callable returning the legacy success triple on every attempt. -/
def calTuple : Callable :=
  { behavior := fun _ => AttemptOutcome.ret (PyValue.tuple3 true "ok" (PyObj.int 1)) }

/-- A callable whose every attempt raises. -/
def calRaise : Callable :=
  { behavior := fun _ => AttemptOutcome.exn "boom" "tb" }

/-- A callable returning a value that is neither a tuple nor a result
object. -/
def calBadRet : Callable :=
  { behavior := fun _ => AttemptOutcome.ret (PyValue.other "class int") }

/-- A callable that returns a unified result object marked skipped. -/
def calChoseSkip : Callable :=
  { behavior := fun _ =>
      AttemptOutcome.ret (PyValue.unified true "done" PyObj.none true [] [] []) }

/-- A step whose callable always raises, with one retry permitted. -/
def stepRaise : Step := { name := "a", func := calRaise, timeout := 5, retries := 1 }

/-- A step whose callable deliberately skips. -/
def stepChoseSkip : Step :=
  { name := "s", func := calChoseSkip, timeout := 5, retries := 0 }

/-- A step requiring a dependency that never ran. -/
def stepNeedsMissing : Step :=
  { name := "w", func := calTuple, requires := ["zz"], timeout := 5, retries := 0 }

/-- The dependency-skip record the runner produces for `stepNeedsMissing`. -/
def depSkipResW : StepResult :=
  { name := "w", skipped := true, message := "Missing dependencies: zz" }

/-- An executed-and-failed result (a blocking failure). -/
def failedRes : StepResult := { name := "f", success := false, executed := true }

/-- A result that is executed and skipped at once, as produced when a
callable returns a unified result object marked skipped. -/
def oddSummaryRes : StepResult :=
  { name := "s", success := true, skipped := true, executed := true }

/-- A step with an always-succeeding tuple callable and no requirements. -/
def stepTupleB : Step := { name := "B", func := calTuple, timeout := 5, retries := 0 }

/-- A runner with one registered step and no results yet. -/
def runnerW : Runner := { steps := [stepTupleB] }

/-- A step whose callable returns an invalid value. -/
def stepBadRet : Step := { name := "x", func := calBadRet, timeout := 5, retries := 0 }

/-- Claim C2 (amended): `add_step` performs no name-uniqueness check; every
registration succeeds, appending the resolved step dict at the end of
`steps` and leaving all earlier registrations and the result list intact.
No `DuplicateStepName` error exists in the code. -/
theorem C2_add_step_always_appends (runner : Runner) (name : String)
    (func : Callable) (requires : Option (List String))
    (parallel_group : Option String) (timeout : Option Rat)
    (retries : Option Nat) :
    (add_step runner name func requires parallel_group timeout retries).steps =
      runner.steps ++
        [{ name := name
           func := func
           requires := requires.getD []
           parallel_group := parallel_group
           timeout := timeout.getD runner.timeout
           retries := retries.getD runner.max_retries }] ∧
    (add_step runner name func requires parallel_group timeout retries).results =
      runner.results :=
  ⟨rfl, rfl⟩

/-- Claim C2 counterexample: registering the name "a" twice does not fail;
the second registration is appended and both declarations named "a" are
present afterwards. -/
theorem C2_counterexample :
    ((add_step (add_step ({} : Runner) "a" calTuple none none none none) "a"
        calTuple none none none none).steps.map fun s => s.name) = ["a", "a"] :=
  rfl

/-- Claim C5: with `stop_on_failure` enabled and a prior blocking failure
(some result with `success = false` and `skipped = false`), the whole group
is short-circuited: every member is appended as a skip record with message
"Skipped due to previous failure", `skipped = true`, `executed = false`,
with no dependency check and no execution, regardless of each member's own
`requires` (the appended records depend only on the member names). -/
theorem C5_group_short_circuit (verbose : Bool) (results : List StepResult)
    (key : String) (members : List Step)
    (h : hasBlockingFailure results = true) :
    processGroup true verbose results (key, members) =
      results ++ members.map (fun s => prevFailureSkip s.name) ∧
    ∀ n, (prevFailureSkip n).skipped = true ∧
      (prevFailureSkip n).executed = false ∧
      (prevFailureSkip n).message = "Skipped due to previous failure" := by
  constructor
  · simp [processGroup, h]
  · intro n
    exact ⟨rfl, rfl, rfl⟩

theorem C5_witness :
    processGroup true false [failedRes] ("g", [stepNeedsMissing, stepTupleB]) =
      [failedRes] ++
        [stepNeedsMissing, stepTupleB].map (fun s => prevFailureSkip s.name) ∧
    ∀ n, (prevFailureSkip n).skipped = true ∧
      (prevFailureSkip n).executed = false ∧
      (prevFailureSkip n).message = "Skipped due to previous failure" :=
  C5_group_short_circuit false [failedRes] "g" [stepNeedsMissing, stepTupleB]
    (by decide)

/-- Claim C9: every skip record the runner itself produces (dependency
skip, the in-step prior-failure skip, and the group-level short-circuit
record) has `success = false` and `skipped = true`; consequently appending
such a record changes neither the successful-name list used by the
dependency check nor the blocking-failure test of the stop-on-failure
short-circuit. -/
theorem C9_runner_skips (stop verbose : Bool) (results : List StepResult)
    (step : Step) (n : String) :
    ((missingDeps results step.requires).isEmpty = false →
      (run_step stop verbose results step).success = false ∧
      (run_step stop verbose results step).skipped = true) ∧
    ((missingDeps results step.requires).isEmpty = true →
      (stop && hasBlockingFailure results) = true →
      (run_step stop verbose results step).success = false ∧
      (run_step stop verbose results step).skipped = true) ∧
    ((prevFailureSkip n).success = false ∧ (prevFailureSkip n).skipped = true) ∧
    (∀ r : StepResult, r.success = false →
      successNames (results ++ [r]) = successNames results) ∧
    (∀ r : StepResult, r.skipped = true →
      hasBlockingFailure (results ++ [r]) = hasBlockingFailure results) := by
  refine ⟨?_, ?_, ⟨rfl, rfl⟩, ?_, ?_⟩
  · intro h
    simp [run_step, h]
  · intro h1 h2
    simp [run_step, h1, h2]
  · intro r hr
    simp [successNames, List.filter_append, hr]
  · intro r hr
    simp [hasBlockingFailure, List.any_append, hr]

theorem C9_witness :
    (run_step true false [] stepNeedsMissing).success = false ∧
    (run_step true false [] stepNeedsMissing).skipped = true :=
  (C9_runner_skips true false [] stepNeedsMissing "x").1 (by decide)

/-- Claim C10: `get_progress` returns 0 when no step is registered (the
conditional guards the division), and otherwise the number of executed
results divided by the number of registered steps, whose count is then
nonzero. -/
theorem C10_get_progress (runner : Runner) :
    (runner.steps.isEmpty = true → get_progress runner = 0) ∧
    (runner.steps.isEmpty = false →
      get_progress runner =
        (countExecuted runner.results : Rat) / (runner.steps.length : Rat) ∧
      runner.steps.length ≠ 0) := by
  constructor
  · intro h
    simp [get_progress, h]
  · intro h
    refine ⟨by simp [get_progress, h], ?_⟩
    intro hlen
    rw [List.length_eq_zero] at hlen
    rw [hlen] at h
    simp at h

theorem C10_witness :
    (get_progress runnerW =
      (countExecuted runnerW.results : Rat) / (runnerW.steps.length : Rat) ∧
      runnerW.steps.length ≠ 0) ∧
    get_progress { steps := ([] : List Step) } = 0 :=
  ⟨(C10_get_progress runnerW).2 (by decide),
   (C10_get_progress { steps := ([] : List Step) }).1 (by decide)⟩

theorem normalizeReturn_executed (v : PyValue) (r : StepResult) :
    (normalizeReturn v r).executed = r.executed := by
  cases v <;> rfl

theorem attemptLoop_executed (f : Callable) (t : Rat) (mr : Nat) (vb : Bool) :
    ∀ remaining attempt r,
      (attemptLoop f t mr vb attempt remaining r).executed = r.executed := by
  intro remaining
  induction remaining with
  | zero =>
      intro attempt r
      unfold attemptLoop
      cases hb : f.behavior attempt <;> simp [hb, normalizeReturn_executed]
  | succ rem ih =>
      intro attempt r
      unfold attemptLoop
      cases hb : f.behavior attempt <;> simp [hb, normalizeReturn_executed, ih]

theorem attemptLoop_all_fail (f : Callable) (t : Rat) (mr : Nat) (vb : Bool) :
    ∀ remaining attempt r,
      (∀ a, attempt ≤ a → a ≤ attempt + remaining →
        isFailureOutcome (f.behavior a) = true) →
      (attemptLoop f t mr vb attempt remaining r).attempts = r.attempts ∧
      (attemptLoop f t mr vb attempt remaining r).success = false := by
  intro remaining
  induction remaining with
  | zero =>
      intro attempt r h
      have ha := h attempt le_rfl (by omega)
      unfold attemptLoop
      cases hb : f.behavior attempt with
      | ret v =>
          rw [hb] at ha
          simp [isFailureOutcome] at ha
      | timeout => simp [hb]
      | exn e tb => simp [hb]
  | succ rem ih =>
      intro attempt r h
      have ha := h attempt le_rfl (by omega)
      unfold attemptLoop
      cases hb : f.behavior attempt with
      | ret v =>
          rw [hb] at ha
          simp [isFailureOutcome] at ha
      | timeout =>
          simp only [hb]
          simpa using ih (attempt + 1) _ (fun a h1 h2 => h a (by omega) (by omega))
      | exn e tb =>
          simp only [hb]
          simpa using ih (attempt + 1) _ (fun a h1 h2 => h a (by omega) (by omega))

theorem attemptLoop_ret_at (f : Callable) (t : Rat) (mr : Nat) (vb : Bool) :
    ∀ remaining attempt r k v,
      attempt ≤ k → k ≤ attempt + remaining →
      (∀ a, attempt ≤ a → a < k → isFailureOutcome (f.behavior a) = true) →
      f.behavior k = .ret v →
      (attemptLoop f t mr vb attempt remaining r).attempts = k := by
  intro remaining
  induction remaining with
  | zero =>
      intro attempt r k v h1 h2 hfail hret
      have hk : k = attempt := by omega
      subst hk
      unfold attemptLoop
      rw [hret]
  | succ rem ih =>
      intro attempt r k v h1 h2 hfail hret
      by_cases hk : attempt = k
      · subst hk
        unfold attemptLoop
        rw [hret]
      · have hlt : attempt < k := by omega
        have ha := hfail attempt le_rfl hlt
        unfold attemptLoop
        cases hb : f.behavior attempt with
        | ret w =>
            rw [hb] at ha
            simp [isFailureOutcome] at ha
        | timeout =>
            simp only [hb]
            exact ih (attempt + 1) _ k v (by omega) (by omega)
              (fun a ha1 ha2 => hfail a (by omega) ha2) hret
        | exn e tb =>
            simp only [hb]
            exact ih (attempt + 1) _ k v (by omega) (by omega)
              (fun a ha1 ha2 => hfail a (by omega) ha2) hret

/-- Claim C1 (amended): when every permitted attempt of a non-skipped step
raises or times out, the recorded result has `success = false` and
`executed = true` but `attempts` keeps its initial value 1 (it is never
assigned on the failure paths), not `max_retries + 1`; when the callable
first returns normally on attempt k (earlier attempts raising or timing
out), `attempts` is set to k. -/
theorem C1_attempts (stop verbose : Bool) (results : List StepResult)
    (step : Step)
    (h1 : (missingDeps results step.requires).isEmpty = true)
    (h2 : (stop && hasBlockingFailure results) = false) :
    ((∀ a, 1 ≤ a → a ≤ step.retries + 1 →
        isFailureOutcome (step.func.behavior a) = true) →
      (run_step stop verbose results step).attempts = 1 ∧
      (run_step stop verbose results step).success = false ∧
      (run_step stop verbose results step).executed = true) ∧
    (∀ k v, 1 ≤ k → k ≤ step.retries + 1 →
      (∀ a, 1 ≤ a → a < k → isFailureOutcome (step.func.behavior a) = true) →
      step.func.behavior k = .ret v →
      (run_step stop verbose results step).attempts = k ∧
      (run_step stop verbose results step).executed = true) := by
  have hrs : run_step stop verbose results step =
      attemptLoop step.func step.timeout step.retries verbose 1 step.retries
        { name := step.name, executed := true } := by
    simp [run_step, h1, h2]
  constructor
  · intro hfail
    rw [hrs]
    have h := attemptLoop_all_fail step.func step.timeout step.retries verbose
      step.retries 1 { name := step.name, executed := true }
      (fun a ha1 ha2 => hfail a ha1 (by omega))
    exact ⟨h.1, h.2, by rw [attemptLoop_executed]⟩
  · intro k v hk1 hk2 hfail hret
    rw [hrs]
    refine ⟨?_, by rw [attemptLoop_executed]⟩
    exact attemptLoop_ret_at step.func step.timeout step.retries verbose
      step.retries 1 _ k v hk1 (by omega) hfail hret

theorem C1_witness :
    (run_step true false [] stepRaise).attempts = 1 ∧
    (run_step true false [] stepRaise).success = false ∧
    (run_step true false [] stepRaise).executed = true :=
  (C1_attempts true false [] stepRaise (by decide) (by decide)).1
    (fun _ _ _ => rfl)

/-- Claim C1 counterexample: a step whose callable always raises, run with
`max_retries = 1`, is recorded with `attempts = 1`, not
`max_retries + 1 = 2`, while `success = false` and `executed = true`. -/
theorem C1_counterexample :
    (run_step true false [] stepRaise).success = false ∧
    (run_step true false [] stepRaise).executed = true ∧
    (run_step true false [] stepRaise).attempts = 1 ∧
    stepRaise.retries + 1 = 2 ∧
    ¬ (run_step true false [] stepRaise).attempts = stepRaise.retries + 1 := by
  refine ⟨?_, ?_, ?_, ?_, ?_⟩ <;> decide

theorem run_step_exec_skip (stop verbose : Bool) (results : List StepResult)
    (step : Step) :
    (run_step stop verbose results step).executed = false →
    (run_step stop verbose results step).skipped = true := by
  simp only [run_step]
  cases h1 : (missingDeps results step.requires).isEmpty with
  | false => simp [h1]
  | true =>
      cases h2 : stop && hasBlockingFailure results with
      | true => simp [h1, h2]
      | false => simp [h1, h2, attemptLoop_executed]

theorem processGroup_exec_skip (stop verbose : Bool) (results : List StepResult)
    (g : String × List Step)
    (h : ∀ r ∈ results, r.executed = false → r.skipped = true) :
    ∀ r ∈ processGroup stop verbose results g,
      r.executed = false → r.skipped = true := by
  intro r hr
  unfold processGroup at hr
  split at hr
  · rcases List.mem_append.mp hr with hm | hm
    · exact h r hm
    · obtain ⟨s, hs, rfl⟩ := List.mem_map.mp hm
      intro _
      rfl
  · rcases List.mem_append.mp hr with hm | hm
    · exact h r hm
    · obtain ⟨s, hs, rfl⟩ := List.mem_map.mp hm
      exact run_step_exec_skip stop verbose results s

theorem foldl_processGroup_exec_skip (stop verbose : Bool) :
    ∀ (groups : List (String × List Step)) (results : List StepResult),
      (∀ r ∈ results, r.executed = false → r.skipped = true) →
      ∀ r ∈ groups.foldl (processGroup stop verbose) results,
        r.executed = false → r.skipped = true := by
  intro groups
  induction groups with
  | nil =>
      intro results h
      simpa using h
  | cons g gs ih =>
      intro results h r hr
      exact ih (processGroup stop verbose results g)
        (processGroup_exec_skip stop verbose results g h) r hr

/-- Claim C3 (amended): in the list returned by a run, a result with
`executed = false` always has `skipped = true`; the converse is not an
equivalence, because a callable that returns a unified result object marked
skipped produces a result with `executed = true` and `skipped = true`. -/
theorem C3_exec_implies_skipped (stop verbose : Bool) (steps : List Step) :
    ∀ r ∈ runAll stop verbose [] steps, r.executed = false → r.skipped = true := by
  intro r hr
  exact foldl_processGroup_exec_skip stop verbose (groupSteps steps) []
    (by intro r h; simp at h) r hr

theorem C3_witness : depSkipResW.skipped = true :=
  C3_exec_implies_skipped true false [stepNeedsMissing] depSkipResW
    (by decide) (by decide)

/-- Claim C3 counterexample: running one step whose callable returns a
unified result object with `skipped = True` yields a result with
`executed = true` and `skipped = true`, so
`executed == false ⟺ skipped == true` fails on the returned list. -/
theorem C3_counterexample :
    ¬ (∀ r ∈ runAll true false [] [stepChoseSkip],
        (r.executed = false ↔ r.skipped = true)) := by
  decide

/-- Claim C7: in a non-skipped step, a callable value that is a 3-element
tuple is mapped directly onto `success`/`message`/`data` with tags and
metrics left at their empty defaults (the full record is pinned), and a
value that is neither a 3-element tuple nor a structured result object
yields `success = false` and message "Invalid return type from step: "
followed by the value's type. -/
theorem C7_normalization (stop verbose : Bool) (results : List StepResult)
    (step : Step) (s : Bool) (m : String) (d : PyObj) (t : String)
    (h1 : (missingDeps results step.requires).isEmpty = true)
    (h2 : (stop && hasBlockingFailure results) = false) :
    (step.func.behavior 1 = .ret (.tuple3 s m d) →
      run_step stop verbose results step =
        { name := step.name
          success := s
          message := m
          data := d
          executed := true
          attempts := 1
          time_taken := step.func.elapsed 1 }) ∧
    (step.func.behavior 1 = .ret (.other t) →
      (run_step stop verbose results step).success = false ∧
      (run_step stop verbose results step).message =
        "Invalid return type from step: " ++ t) := by
  have hrs : run_step stop verbose results step =
      attemptLoop step.func step.timeout step.retries verbose 1 step.retries
        { name := step.name, executed := true } := by
    simp [run_step, h1, h2]
  constructor
  · intro hb
    rw [hrs]
    unfold attemptLoop
    rw [hb]
    rfl
  · intro hb
    rw [hrs]
    unfold attemptLoop
    rw [hb]
    exact ⟨rfl, rfl⟩

theorem C7_witness :
    run_step true false [] stepTupleB =
      { name := stepTupleB.name
        success := true
        message := "ok"
        data := PyObj.int 1
        executed := true
        attempts := 1
        time_taken := stepTupleB.func.elapsed 1 } ∧
    (run_step true false [] stepBadRet).success = false ∧
    (run_step true false [] stepBadRet).message =
      "Invalid return type from step: " ++ "class int" :=
  ⟨(C7_normalization true false [] stepTupleB true "ok" (PyObj.int 1) "t"
      (by decide) (by decide)).1 rfl,
   (C7_normalization true false [] stepBadRet true "ok" PyObj.none "class int"
      (by decide) (by decide)).2 rfl⟩

theorem insertGrouped_keys (key : String) (s : Step) :
    ∀ gs : List (String × List Step),
    (insertGrouped gs key s).map Prod.fst =
      if key ∈ gs.map Prod.fst then gs.map Prod.fst
      else gs.map Prod.fst ++ [key] := by
  intro gs
  induction gs with
  | nil => simp [insertGrouped]
  | cons p tl ih =>
      obtain ⟨k, l⟩ := p
      by_cases hk : k = key
      · subst hk
        simp [insertGrouped]
      · simp only [insertGrouped, if_neg hk, List.map_cons, ih]
        by_cases hm : key ∈ tl.map Prod.fst
        · simp [hm, Ne.symm hk]
        · simp [hm, Ne.symm hk]

theorem firstSeenKeys_congr : ∀ (l s1 s2 : List String),
    (∀ a, a ∈ s1 ↔ a ∈ s2) → firstSeenKeys s1 l = firstSeenKeys s2 l := by
  intro l
  induction l with
  | nil => intro s1 s2 h; rfl
  | cons k ks ih =>
      intro s1 s2 h
      simp only [firstSeenKeys]
      by_cases hm : k ∈ s1
      · rw [if_pos hm, if_pos ((h k).mp hm), ih s1 s2 h]
      · rw [if_neg hm, if_neg (fun hc => hm ((h k).mpr hc)),
          ih (k :: s1) (k :: s2) (by intro a; simp [h a])]

theorem foldl_insStep_keys : ∀ (steps : List Step) (gs : List (String × List Step)),
    ((steps.foldl insStep gs).map Prod.fst) =
      gs.map Prod.fst ++ firstSeenKeys (gs.map Prod.fst) (steps.map groupKey) := by
  intro steps
  induction steps with
  | nil => intro gs; simp [firstSeenKeys]
  | cons s rest ih =>
      intro gs
      simp only [List.foldl_cons, List.map_cons]
      rw [ih, show insStep gs s = insertGrouped gs (groupKey s) s from rfl,
        insertGrouped_keys]
      by_cases hm : groupKey s ∈ gs.map Prod.fst
      · rw [if_pos hm]
        simp only [firstSeenKeys, if_pos hm]
      · rw [if_neg hm]
        simp only [firstSeenKeys, if_neg hm]
        rw [firstSeenKeys_congr (rest.map groupKey)
          (gs.map Prod.fst ++ [groupKey s]) (groupKey s :: gs.map Prod.fst)
          (by intro a; simp [or_comm])]
        simp

theorem insertGrouped_find (key : String) (s : Step) :
    ∀ (gs : List (String × List Step)) (key2 : String),
    findGroup (insertGrouped gs key s) key2 =
      if key2 = key then some (((findGroup gs key).getD []) ++ [s])
      else findGroup gs key2 := by
  intro gs
  induction gs with
  | nil =>
      intro key2
      by_cases h : key2 = key
      · subst h
        simp [insertGrouped, findGroup]
      · have h2 : ¬ key = key2 := fun hc => h hc.symm
        simp [insertGrouped, findGroup, h, h2]
  | cons p tl ih =>
      intro key2
      obtain ⟨k, l⟩ := p
      by_cases hk : k = key
      · subst hk
        by_cases h2 : k = key2
        · subst h2
          simp [insertGrouped, findGroup]
        · have h3 : ¬ key2 = k := fun hc => h2 hc.symm
          simp [insertGrouped, findGroup, h2, h3]
      · by_cases h2 : k = key2
        · subst h2
          have h3 : ¬ k = key := hk
          simp [insertGrouped, findGroup, hk, h3, Ne.symm hk]
        · simp [insertGrouped, findGroup, hk, h2, ih key2]

theorem foldl_insStep_find : ∀ (steps : List Step)
    (gs : List (String × List Step)) (key : String),
    findGroup (steps.foldl insStep gs) key =
      combineOpt (findGroup gs key) (steps.filter fun s => groupKey s == key) := by
  intro steps
  induction steps with
  | nil =>
      intro gs key
      simp only [List.foldl_nil, List.filter_nil]
      cases h : findGroup gs key <;> simp [combineOpt, h]
  | cons s rest ih =>
      intro gs key
      simp only [List.foldl_cons, List.filter_cons]
      rw [ih, show insStep gs s = insertGrouped gs (groupKey s) s from rfl,
        insertGrouped_find]
      by_cases hk : key = groupKey s
      · subst hk
        simp only [beq_self_eq_true, if_pos, if_true]
        cases h : findGroup gs (groupKey s) with
        | some m => simp [combineOpt, h]
        | none => simp [combineOpt, h]
      · rw [if_neg hk]
        have hbeq : (groupKey s == key) = false :=
          beq_eq_false_iff_ne.mpr (fun hc => hk hc.symm)
        simp [hbeq]

/-- Claim C6: `run` partitions the registered steps by group key (the
`parallel_group` if present and non-empty, else the step's own name): the
keys of the computed group dict are in first-seen order, each key's member
list is exactly the registration-order sublist of steps with that key, and
the run is the sequential left fold of group processing over that dict in
key order. -/
theorem C6_grouping (steps : List Step) :
    (groupSteps steps).map Prod.fst = firstSeenKeys [] (steps.map groupKey) ∧
    (∀ key, findGroup (groupSteps steps) key =
      (if (steps.filter fun s => groupKey s == key).isEmpty then none
       else some (steps.filter fun s => groupKey s == key))) ∧
    (∀ stop verbose init, runAll stop verbose init steps =
      (groupSteps steps).foldl (processGroup stop verbose) init) := by
  refine ⟨?_, ?_, fun _ _ _ => rfl⟩
  · have h := foldl_insStep_keys steps []
    simpa using h
  · intro key
    have h := foldl_insStep_find steps [] key
    simpa [combineOpt, findGroup] using h

/-- Claim C4: a step (not short-circuited at group level) whose `requires`
is not a subset of the names of prior successful results produces exactly
the dependency-skip record: `skipped = true`, `executed = false`, message
"Missing dependencies: " followed by the comma-joined missing names, and
its callable is never consulted (the outcome is invariant under replacing
the callable). -/
theorem C4_dependency_gating (stop verbose : Bool) (results : List StepResult)
    (step : Step)
    (h : ¬ ∀ dep ∈ step.requires, dep ∈ successNames results) :
    run_step stop verbose results step =
      { name := step.name
        skipped := true
        message := "Missing dependencies: " ++
          String.intercalate ", " (missingDeps results step.requires) } ∧
    (run_step stop verbose results step).executed = false ∧
    (∀ g : Callable,
      run_step stop verbose results { step with func := g } =
        run_step stop verbose results step) := by
  have hne : (missingDeps results step.requires).isEmpty = false := by
    push_neg at h
    obtain ⟨dep, hdep, hnot⟩ := h
    have hmem : dep ∈ missingDeps results step.requires := by
      unfold missingDeps
      rw [List.mem_filter]
      exact ⟨hdep, by simp [hnot]⟩
    cases he : (missingDeps results step.requires).isEmpty with
    | false => rfl
    | true =>
        rw [List.isEmpty_iff] at he
        rw [he] at hmem
        simp at hmem
  refine ⟨?_, ?_, ?_⟩
  · simp [run_step, hne]
  · simp [run_step, hne]
  · intro g
    simp [run_step, hne]

theorem C4_witness :
    run_step true false [] stepNeedsMissing =
      { name := stepNeedsMissing.name
        skipped := true
        message := "Missing dependencies: " ++
          String.intercalate ", " (missingDeps [] stepNeedsMissing.requires) } ∧
    (run_step true false [] stepNeedsMissing).executed = false ∧
    (∀ g : Callable,
      run_step true false [] { stepNeedsMissing with func := g } =
        run_step true false [] stepNeedsMissing) :=
  C4_dependency_gating true false [] stepNeedsMissing (by decide)

theorem jsonStats_passed : ∀ (results : List StepResult) (st : JsonStats),
    (List.foldl jsonStatsStep st results).passed =
      st.passed + (results.filter fun r => r.executed && r.success).length := by
  intro results
  induction results with
  | nil => intro st; simp
  | cons r rs ih =>
      intro st
      simp only [List.foldl_cons, List.filter_cons]
      rw [ih]
      unfold jsonStatsStep
      cases he : r.executed with
      | false => simp [he]
      | true =>
          cases hs : r.success with
          | false => simp [he, hs]
          | true =>
              simp [he, hs]
              omega

theorem jsonStats_failed : ∀ (results : List StepResult) (st : JsonStats),
    (List.foldl jsonStatsStep st results).failed =
      st.failed + (results.filter fun r => r.executed && !r.success).length := by
  intro results
  induction results with
  | nil => intro st; simp
  | cons r rs ih =>
      intro st
      simp only [List.foldl_cons, List.filter_cons]
      rw [ih]
      unfold jsonStatsStep
      cases he : r.executed with
      | false => simp [he]
      | true =>
          cases hs : r.success with
          | true => simp [he, hs]
          | false =>
              simp [he, hs]
              omega

theorem jsonStats_skipped : ∀ (results : List StepResult) (st : JsonStats),
    (List.foldl jsonStatsStep st results).skipped =
      st.skipped + (results.filter fun r => !r.executed).length := by
  intro results
  induction results with
  | nil => intro st; simp
  | cons r rs ih =>
      intro st
      simp only [List.foldl_cons, List.filter_cons]
      rw [ih]
      unfold jsonStatsStep
      cases he : r.executed with
      | true =>
          cases hs : r.success with
          | true => simp [he, hs]
          | false => simp [he, hs]
      | false =>
          simp [he]
          omega

theorem jsonStats_total_time : ∀ (results : List StepResult) (st : JsonStats),
    (List.foldl jsonStatsStep st results).total_time =
      st.total_time +
        ((results.filter fun r => r.executed).map fun r => r.time_taken).sum := by
  intro results
  induction results with
  | nil => intro st; simp
  | cons r rs ih =>
      intro st
      simp only [List.foldl_cons, List.filter_cons]
      rw [ih]
      unfold jsonStatsStep
      cases he : r.executed with
      | false => simp [he]
      | true =>
          cases hs : r.success with
          | true =>
              simp [he, hs]
              ring
          | false =>
              simp [he, hs]
              ring

theorem richSuccesses_eq (results : List StepResult) :
    richSuccesses results = results.filter fun r => r.executed && r.success := by
  unfold richSuccesses richExecuted
  rw [List.filter_filter]
  exact List.filter_congr fun a _ => Bool.and_comm _ _

theorem richFailures_eq (results : List StepResult) :
    richFailures results = results.filter fun r => r.executed && !r.success := by
  unfold richFailures richExecuted
  rw [List.filter_filter]
  exact List.filter_congr fun a _ => Bool.and_comm _ _

/-- Claim C8 (amended): both summary branches count a step as passed or
failed only when `executed = true`, and both report total time as the sum
of `time_taken` over executed steps; the JSON stats count the remaining
(non-executed) steps as skipped, while the rich rendering counts the steps
with `skipped = true`, which coincides with the remaining steps exactly
when every result satisfies `skipped = !executed` (the projector is a pure
function of the list). -/
theorem C8_summary (results : List StepResult) :
    (jsonStats results).passed =
      (results.filter fun r => r.executed && r.success).length ∧
    (jsonStats results).failed =
      (results.filter fun r => r.executed && !r.success).length ∧
    (jsonStats results).skipped =
      (results.filter fun r => !r.executed).length ∧
    (jsonStats results).total_time =
      ((results.filter fun r => r.executed).map fun r => r.time_taken).sum ∧
    (richSuccesses results).length =
      (results.filter fun r => r.executed && r.success).length ∧
    (richFailures results).length =
      (results.filter fun r => r.executed && !r.success).length ∧
    richTotalTime results =
      ((results.filter fun r => r.executed).map fun r => r.time_taken).sum ∧
    ((∀ r ∈ results, r.skipped = !r.executed) →
      (richSkipped results).length =
        (results.filter fun r => !r.executed).length) := by
  refine ⟨?_, ?_, ?_, ?_, ?_, ?_, rfl, ?_⟩
  · simpa using jsonStats_passed results {}
  · simpa using jsonStats_failed results {}
  · simpa using jsonStats_skipped results {}
  · simpa using jsonStats_total_time results {}
  · rw [richSuccesses_eq]
  · rw [richFailures_eq]
  · intro h
    unfold richSkipped
    exact congrArg List.length (List.filter_congr h)

theorem C8_witness :
    (richSkipped [failedRes]).length =
      ([failedRes].filter fun r => !r.executed).length :=
  (C8_summary [failedRes]).2.2.2.2.2.2.2 (by decide)

/-- Claim C8 counterexample: on the single-element list containing a result
with `executed = true` and `skipped = true` (as a deliberate callable skip
produces), the rich rendering counts 1 step as skipped while the number of
remaining (non-executed) steps is 0 (and the JSON stats count 0 skipped),
so the projector does not count exactly the non-executed steps as skipped. -/
theorem C8_counterexample :
    (richSkipped [oddSummaryRes]).length = 1 ∧
    ([oddSummaryRes].filter fun r => !r.executed).length = 0 ∧
    (jsonStats [oddSummaryRes]).skipped = 0 :=
  ⟨rfl, rfl, rfl⟩
